import Mathlib

/-!
Verification of the tpi image-transfer and authentication core

Shallow embedding of the Turing Pi CLI's (`tpi`) hardened request/flash/auth
logic, translated from the Go sources:

* `Request.Send`, `Request.getBearerToken`, `Request.requestToken` and the
  vendor-default credential list (request dispatch / credential resolution);
* `CacheToken` / `GetCachedToken` / `getCacheFilePath` (token cache);
* `Client.FlashNode` (two-phase upload handshake with bounded retries);
* `Client.watchFlashingProgress` (progress polling state machine).

External effects (HTTP exchanges, the filesystem, the SHA-256 function and the
multipart encoder from the Go standard library) are modelled as explicit
parameters/oracles, so that every definition is executable and every network
or filesystem interaction is visible in the returned traces.
-/

namespace Tpi

/-! ## Token cache and credential resolution (`part_008`, `part_009`) -/

/-- The token cache: one optional token per host.  The empty host string is the
legacy/default entry (file `tpi_token`); other hosts map to `tpi_token_<host>`.
This is the state read by `GetCachedToken` and written by `CacheToken`. -/
abbrev Cache := String → Option String

/-- Oracle for `POST /api/bmc/authenticate`: given username and password it
returns either the token from the response's `id` field or the error produced
by `requestToken` (transport failure, 403 invalid credentials, …). -/
abbrev AuthFn := String → String → Except String String

/-- Write-through of `CacheToken host token` on the in-memory view of the
cache. -/
def cacheInsert (c : Cache) (host token : String) : Cache :=
  fun h => if h = host then some token else c h

/-- Effect of `DeleteCachedToken host` on the in-memory view of the cache. -/
def cacheRemove (c : Cache) (host : String) : Cache :=
  fun h => if h = host then none else c h

/-- Model of `Request.requestToken`: one `POST /api/bmc/authenticate` with the request's
current credentials; on success the token is also written to the cache for the
request's host (`CacheToken(r.Host, token)`). -/
def requestTokenM (auth : AuthFn) (c : Cache) (host u p : String) :
    Except String String × Cache :=
  match auth u p with
  | .ok t => (.ok t, cacheInsert c host t)
  | .error e => (.error e, c)

/-- The hard-coded vendor-default credential pairs tried by
`getBearerToken` when no explicit credentials are available, in source
order. -/
def credentialPairs : List (String × String) :=
  [("root", ""), ("root", "turing"), ("root", "root"),
   ("admin", "admin"), ("turingpi", "turingpi")]

/-- Result of a credential-resolution run: the token or error, the list of
`(username, password)` pairs actually sent to `/api/bmc/authenticate`, and the
cache after the run. -/
structure AuthOutcome where
  result : Except String String
  calls : List (String × String)
  cache : Cache

/-- The default-credentials loop at the end of `getBearerToken`: try each pair
with `requestToken`, return the first success, remember the last error, and
after exhausting the list fail wrapping that last error. -/
def tryDefaultsGo (auth : AuthFn) (c : Cache) (host : String) :
    List (String × String) → String → AuthOutcome
  | [], lastErr =>
    ⟨.error ("failed to authenticate with any credentials: " ++ lastErr), [], c⟩
  | (u, p) :: rest, lastErr =>
    match requestTokenM auth c host u p with
    | (.ok t, c') => ⟨.ok t, [(u, p)], c'⟩
    | (.error e, _) =>
      let r := tryDefaultsGo auth c host rest e
      ⟨r.result, (u, p) :: r.calls, r.cache⟩

/-- Model of `Request.getBearerToken`: host-specific cached token, then (for a non-empty
host) the legacy cached token, then explicit credentials when both username and
password are non-empty, then the vendor-default pairs.  `lastErr` starts as the
zero value of Go's `error` (rendered here as the empty string). -/
def getBearerTokenM (auth : AuthFn) (c : Cache) (host u p : String) :
    AuthOutcome :=
  match c host with
  | some t => ⟨.ok t, [], c⟩
  | none =>
    match (if host ≠ "" then c "" else none) with
    | some t => ⟨.ok t, [], c⟩
    | none =>
      if u ≠ "" ∧ p ≠ "" then
        let r := requestTokenM auth c host u p
        ⟨r.1, [(u, p)], r.2⟩
      else
        tryDefaultsGo auth c host credentialPairs ""

/-! ## Request dispatch (`Request.Send`, `part_008`) -/

/-- The wire-level outcome of one HTTP exchange performed by `Send`:
either `client.Do` fails at the transport level or a response with some status
code comes back. -/
inductive WireResp
  | transportErr (e : String)
  | status (code : Nat)
deriving DecidableEq, Repr

/-- Result of one logical `Send` call: the value returned to the caller
(`Except` error string, or the status code of the response handed back), the
per-HTTP-attempt record of which bearer token (if any) was attached, and the
token cache after the call. -/
structure SendResult where
  result : Except String Nat
  attempts : List (Option String)
  cache : Cache

/-- The `for` loop inside `Request.Send`.  `responses i` is the wire outcome of
the `i`-th HTTP send of this logical call.  When `authenticated` is set the
attempt resolves a bearer token via `getBearerToken` and attaches it; a 401 on
a pre-authenticated attempt deletes the cached token for the host and returns
the 401 response; a 401 on an unauthenticated attempt flips `authenticated`
and loops. -/
def sendAux (auth : AuthFn) (responses : Nat → WireResp) (host u p : String)
    (authenticated : Bool) (c : Cache) (i : Nat) (log : List (Option String)) :
    SendResult :=
  if authenticated then
    match getBearerTokenM auth c host u p with
    | ⟨.error e, _, c'⟩ =>
      ⟨.error ("failed to get bearer token: " ++ e), log, c'⟩
    | ⟨.ok tok, _, c'⟩ =>
      match responses i with
      | .transportErr e =>
        ⟨.error ("failed to send request: " ++ e), log ++ [some tok], c'⟩
      | .status code =>
        if code = 401 then
          ⟨.ok 401, log ++ [some tok], cacheRemove c' host⟩
        else
          ⟨.ok code, log ++ [some tok], c'⟩
  else
    match responses i with
    | .transportErr e =>
      ⟨.error ("failed to send request: " ++ e), log ++ [none], c⟩
    | .status code =>
      if code = 401 then
        sendAux auth responses host u p true c (i + 1) (log ++ [none])
      else
        ⟨.ok code, log ++ [none], c⟩
termination_by (if authenticated then 0 else 1)
decreasing_by simp [*]

/-- Model of `Request.Send`: the attempt starts pre-authenticated exactly when
`GetCachedToken(r.Host)` succeeds. -/
def send (auth : AuthFn) (responses : Nat → WireResp) (c : Cache)
    (host u p : String) : SendResult :=
  sendAux auth responses host u p (c host).isSome c 0 []

/-! ## Token cache persistence (`CacheToken`, `getCacheFilePath`, `part_009`) -/

/-- Filesystem operations observable from the token-cache code.  `writeFile`
is Go's `os.WriteFile(path, data, perm)` (open/truncate, write, close — not
atomic); `rename` is `os.Rename`. -/
inductive FsOp
  | writeFile (path : String) (content : String) (perm : Nat)
  | rename (src dst : String)
deriving DecidableEq, Repr

/-- The host-sanitization in `getCacheFilePath`: `:`, `/` and `.` each become
`_`. -/
def sanitizeHost (host : String) : String :=
  ((host.replace ":" "_").replace "/" "_").replace "." "_"

/-- Model of `getCacheFilePath`, with the platform cache directory abstracted as the
`cacheDir` parameter (the directory-creation fallback chooses `cacheDir`; the
claim under study is about the write at the resulting path). -/
def getCacheFilePath (cacheDir host : String) : String :=
  if host = "" then cacheDir ++ "/tpi_token"
  else cacheDir ++ "/tpi_token_" ++ sanitizeHost host

/-- The filesystem trace of `CacheToken(host, token)`: a single direct
`os.WriteFile` of the token bytes at the cache path with mode 0600. -/
def cacheTokenOps (cacheDir host token : String) : List FsOp :=
  [.writeFile (getCacheFilePath cacheDir host) token 0o600]

/-- Modelled from the spec: §5 requires token-cache writes to be atomic,
"write-then-rename or equivalent".  A filesystem trace is an atomic put of
`path` when no operation writes directly to `path` and the content arrives at
`path` through a rename (from a temporary file written elsewhere).  This
predicate exists only to compare the spec's requirement against the trace the
code produces. -/
def isAtomicPut (path : String) (ops : List FsOp) : Bool :=
  ops.all (fun op => match op with
    | .writeFile p _ _ => p ≠ path
    | .rename _ _ => true) &&
  ops.any (fun op => match op with
    | .writeFile _ _ _ => false
    | .rename _ dst => dst = path)

/-! ## Progress monitor (`watchFlashingProgress`, `part_005`) -/

/-- One decoded polling response (or its failure), as classified by the body
of the `ticker.C` case in `watchFlashingProgress`:

* `transportErr`: `progressReq.Send()` itself failed (includes per-poll
  context-deadline expiry);
* `decodeFailure`: a response arrived but the JSON decode of the body failed;
* `transferring id bytesWritten`: a `Transferring` object; each field is
  `none` when it was absent or failed to parse as a number (directly or via
  `strconv.ParseInt` from a string);
* `done` / `errorResp`: the `Done` / `Error` shapes;
* `unknown`: a decoded body with none of the recognized keys. -/
inductive PollEvent
  | transportErr (msg : String)
  | decodeFailure (msg : String)
  | transferring (id : Option Int) (bytesWritten : Option Int)
  | done
  | errorResp (msg : String)
  | unknown
deriving DecidableEq, Repr

/-- The mutable loop state of `watchFlashingProgress` (timestamps and speeds
as rationals; the code uses `time.Time` and `float64`). -/
structure WatchState where
  verifying : Bool
  consecutiveErr : Nat
  lastErrorMsg : String
  lastBytes : Int
  lastUpdateTime : ℚ
  speedWindow : List ℚ
deriving DecidableEq, Repr

/-- The loop state at entry: `verifying=false`, no errors, `lastBytes=0`,
`lastUpdateTime = startTime`, empty speed window. -/
def initialWatchState (startTime : ℚ) : WatchState :=
  ⟨false, 0, "", 0, startTime, []⟩

/-- What one loop iteration does besides updating state: keep polling (with a
back-off sleep of `backoff` seconds), print a progress line, print the
one-time "Verifying checksum" notice, return success, or return an error. -/
inductive StepAction
  | cont (backoff : Nat)
  | emitProgress (progress speed eta : ℚ)
  | emitVerifying
  | finish
  | fail (msg : String)
deriving DecidableEq, Repr

/-- The `if consecutiveErr > 0 { … consecutiveErr = 0; lastErrorMsg = "" }`
reset executed right after any successful `Send` during polling. -/
def resetConsecutive (st : WatchState) : WatchState :=
  if 0 < st.consecutiveErr then { st with consecutiveErr := 0, lastErrorMsg := "" }
  else st

/-- Appending one `(Δbytes/Δt)` sample to the sliding window:
`speedWindow = append(speedWindow, s); if len > 5 { speedWindow = speedWindow[1:] }`. -/
def pushSample (w : List ℚ) (s : ℚ) : List ℚ :=
  let w' := w ++ [s]
  if 5 < w'.length then w'.tail else w'

/-- The smoothed speed: arithmetic mean of the window. -/
def windowMean (w : List ℚ) : ℚ :=
  w.sum / (w.length : ℚ)

/-- One iteration of the polling loop of `watchFlashingProgress`, at current
time `now`, handling the event for this tick.  Transport errors bump the
consecutive-error counter (with the duplicate-message print filter updating
`lastErrorMsg`), abort at 20, and back off by `min(consecutiveErr/2, 10)`
seconds; every response that arrives resets the counter first; `Transferring`
updates are dropped unless the id parses and equals `handle` and
`bytes_written` parses; at or past `fileSize` the one-time verifying notice
fires; otherwise a progress line with windowed speed and ETA is emitted. -/
def pollStep (handle fileSize : Int) (st : WatchState) (ev : PollEvent)
    (now : ℚ) : WatchState × StepAction :=
  match ev with
  | .transportErr msg =>
    let c := st.consecutiveErr + 1
    let newMsg := if msg ≠ st.lastErrorMsg ∨ c % 5 = 1 then msg else st.lastErrorMsg
    let st' := { st with consecutiveErr := c, lastErrorMsg := newMsg }
    if 20 ≤ c then
      (st', .fail ("too many consecutive errors (" ++ toString c ++ "): " ++ msg))
    else
      (st', .cont (min (c / 2) 10))
  | .decodeFailure _ => (resetConsecutive st, .cont 0)
  | .transferring id bw =>
    let st₀ := resetConsecutive st
    match id with
    | none => (st₀, .cont 0)
    | some i =>
      if i ≠ handle then (st₀, .cont 0)
      else
        match bw with
        | none => (st₀, .cont 0)
        | some bytesWritten =>
          if fileSize ≤ bytesWritten then
            if st₀.verifying then (st₀, .cont 0)
            else ({ st₀ with verifying := true }, .emitVerifying)
          else
            let progress := (bytesWritten : ℚ) / (fileSize : ℚ) * 100
            let elapsed := now - st₀.lastUpdateTime
            if 0 < elapsed ∧ 0 < st₀.lastBytes then
              let currentSpeed := ((bytesWritten : ℚ) - (st₀.lastBytes : ℚ)) / elapsed
              let w := pushSample st₀.speedWindow currentSpeed
              let speed := windowMean w
              let eta := if 0 < speed then ((fileSize : ℚ) - (bytesWritten : ℚ)) / speed else 0
              ({ st₀ with lastBytes := bytesWritten, lastUpdateTime := now, speedWindow := w },
               .emitProgress progress speed eta)
            else
              ({ st₀ with lastBytes := bytesWritten, lastUpdateTime := now },
               .emitProgress progress 0 0)
  | .done => (resetConsecutive st, .finish)
  | .errorResp m =>
    (resetConsecutive st, .fail ("error occurred during flashing: " ++ m))
  | .unknown => (resetConsecutive st, .cont 0)

/-- Outcome of running the watch loop over a finite observed sequence of poll
events: still polling, finished successfully (`Done`), or failed. -/
inductive WatchOutcome
  | running (st : WatchState)
  | finished
  | failed (msg : String)
deriving DecidableEq, Repr

/-- Run `watchFlashingProgress`'s loop over a list of timed poll events. -/
def runWatch (handle fileSize : Int) :
    WatchState → List (PollEvent × ℚ) → WatchOutcome
  | st, [] => .running st
  | st, (ev, now) :: rest =>
    match pollStep handle fileSize st ev now with
    | (_, .fail m) => .failed m
    | (_, .finish) => .finished
    | (st', _) => runWatch handle fileSize st' rest

/-! ## Upload handshake (`Client.FlashNode`, `part_005`) -/

/-- Errors surfaced by `FlashNode`, one constructor per `fmt.Errorf` site
relevant to the handshake. -/
inductive FlashErr
  | invalidNode (n : Int)
  | imagePathRequired
  | openFailed (path : String)
  | checksumMismatch (provided computed : String)
  | initiateSendFailed (e : String)
  | initiateStatusFailed (code : Nat) (body : String)
  | initiateParseFailed (e : String)
  | initiateMissingHandle
  | uploadSendFailed (e : String)
  | uploadStatusFailed (code : Nat) (body : String)
deriving DecidableEq, Repr

/-- Body of one initiate response: either the JSON decode fails, or it decodes
to an object whose `handle` field is carried as `some h` when present and
numeric (`float64` in the decoded map) and `none` otherwise.  `raw` is the
byte content read back for error reporting. -/
inductive InitBody
  | undecodable (e raw : String)
  | json (handle : Option Int) (raw : String)
deriving DecidableEq, Repr

/-- The raw body text of an initiate response. -/
def InitBody.raw : InitBody → String
  | .undecodable _ r => r
  | .json _ r => r

/-- Outcome of one initiate attempt as seen by `FlashNode`: the `req.Send()`
call fails, or a response with a status code and body arrives. -/
inductive InitAttempt
  | transportErr (e : String)
  | resp (code : Nat) (body : InitBody)
deriving DecidableEq, Repr

/-- Classification of a single initiate attempt, following the error paths of
the phase-1 loop in source order: transport failure, non-200 status, JSON
decode failure, missing numeric `handle`, or success with the handle. -/
def initiateAttempt : InitAttempt → Except FlashErr Int
  | .transportErr e => .error (.initiateSendFailed e)
  | .resp code body =>
    if code ≠ 200 then .error (.initiateStatusFailed code body.raw)
    else
      match body with
      | .undecodable e _ => .error (.initiateParseFailed e)
      | .json none _ => .error .initiateMissingHandle
      | .json (some h) _ => .ok h

/-- Whether an `Except` result is an error (Go: `err != nil` / the attempt took
an error path). -/
def isErr {α β : Type} : Except α β → Bool
  | .error _ => true
  | .ok _ => false

/-- The message carried by an `Except` error (and `""` for a success), used to
state which error a fallback loop surfaces. -/
def exceptErrMsg : Except String String → String
  | .error e => e
  | .ok _ => ""

/-- The phase-1 loop of `FlashNode`: `for attempts := 0; attempts < 3`, retry
with a 3-second sleep while `attempts < 2`, surface the last error.  Returns
the result, the number of attempts actually sent, and the sleeps (in seconds)
between attempts. -/
def initiateLoop (env : Nat → InitAttempt) : Except FlashErr Int × Nat × List Nat :=
  match initiateAttempt (env 0) with
  | .ok h => (.ok h, 1, [])
  | .error _ =>
    match initiateAttempt (env 1) with
    | .ok h => (.ok h, 2, [3])
    | .error _ => (initiateAttempt (env 2), 3, [3, 3])

/-- Modelled from the spec: the retry conditions the claim lists for the
initiate phase — "a transport error, a non-200 status, or a decoded JSON body
missing a numeric `handle` field".  Used only to compare the claimed condition
set against the code's. -/
def claimedInitRetry : InitAttempt → Bool
  | .transportErr _ => true
  | .resp code body =>
    if code ≠ 200 then true
    else
      match body with
      | .json none _ => true
      | _ => false

/-- The amended retry condition: additionally a 200 response whose body fails
to decode as JSON is retried. -/
def amendedInitRetry : InitAttempt → Bool
  | .transportErr _ => true
  | .resp code body =>
    if code ≠ 200 then true
    else
      match body with
      | .json none _ => true
      | .undecodable _ _ => true
      | _ => false

/-- Outcome of one upload attempt: `uploadReq.Send()` fails at the transport
level (with `drained` recording whether the request body was consumed before
the failure), or a response arrives (in which case the body buffer was fully
read by the HTTP client). -/
inductive UploadAttempt
  | transportErr (e : String) (drained : Bool)
  | resp (code : Nat) (body : String)
deriving DecidableEq, Repr

/-- Classification of one upload attempt (transport error / non-200 / ok). -/
def uploadOutcome : UploadAttempt → Except FlashErr Unit
  | .transportErr e _ => .error (.uploadSendFailed e)
  | .resp code body =>
    if code ≠ 200 then .error (.uploadStatusFailed code body) else .ok ()

/-- The multipart buffer after an attempt: a `bytes.Buffer` is drained by
being read; once a response came back the body was read in full, so the
buffer is empty for any later attempt. -/
def uploadDrain : UploadAttempt → List Nat → List Nat
  | .transportErr _ drained, buf => if drained then [] else buf
  | .resp _ _, _ => []

/-- The phase-2 loop of `FlashNode`: up to 3 attempts, 5-second sleeps,
sending on every attempt whatever currently remains in the single shared
multipart buffer (the request is never re-cloned).  Returns the result, the
body bytes sent by each attempt, and the sleeps. -/
def uploadLoop (env : Nat → UploadAttempt) (form : List Nat) :
    Except FlashErr Unit × List (List Nat) × List Nat :=
  let a0 := env 0
  let buf1 := uploadDrain a0 form
  match uploadOutcome a0 with
  | .ok _ => (.ok (), [form], [])
  | .error _ =>
    let a1 := env 1
    let buf2 := uploadDrain a1 buf1
    match uploadOutcome a1 with
    | .ok _ => (.ok (), [form, buf1], [5])
    | .error _ => (uploadOutcome (env 2), [form, buf1, buf2], [5, 5])

/-- Caller-supplied flash options (`FlashOptions`). -/
structure FlashOptions where
  imagePath : String
  sha256 : String
  skipCRC : Bool
deriving DecidableEq, Repr

/-- The environment one `FlashNode` call runs against: outcomes for initiate
and upload attempts, the timed poll responses observed by the watcher, and the
wall-clock time at which watching starts. -/
structure FlashEnv where
  init : Nat → InitAttempt
  upload : Nat → UploadAttempt
  polls : List (PollEvent × ℚ)
  startTime : ℚ

/-- Which network phases a `FlashNode` call actually reached: how many
initiate requests were sent, the bodies sent by upload attempts, and whether
the progress watcher issued any polls. -/
structure FlashTrace where
  initiateSends : Nat
  uploadSends : List (List Nat)
  watchStarted : Bool
deriving DecidableEq, Repr

/-- Model of `Client.FlashNode`, with the external library functions as parameters:
`hash` is hex-encoded SHA-256 of the file contents (`crypto/sha256`),
`encodeForm fileName contents` is the multipart form body built by
`mime/multipart`.  `file` is `none` when `os.Open` fails.  Steps, in source
order: node range check, options/path check, open, optional digest
verification (mismatch fails before any request), phase-1 initiate loop,
phase-2 upload loop over the shared multipart buffer, then the progress
watcher. -/
def flashNode (hash : List Nat → String)
    (encodeForm : String → List Nat → List Nat)
    (node : Int) (options : Option FlashOptions) (file : Option (List Nat))
    (env : FlashEnv) : Except FlashErr WatchOutcome × FlashTrace :=
  if node < 1 ∨ 4 < node then
    (.error (.invalidNode node), ⟨0, [], false⟩)
  else
    match options with
    | none => (.error .imagePathRequired, ⟨0, [], false⟩)
    | some opts =>
      if opts.imagePath = "" then (.error .imagePathRequired, ⟨0, [], false⟩)
      else
        match file with
        | none => (.error (.openFailed opts.imagePath), ⟨0, [], false⟩)
        | some contents =>
          let run : Except FlashErr WatchOutcome × FlashTrace :=
            match initiateLoop env.init with
            | (.error e, n, _) => (.error e, ⟨n, [], false⟩)
            | (.ok handle, n, _) =>
              let form := encodeForm opts.imagePath contents
              match uploadLoop env.upload form with
              | (.error e, sent, _) => (.error e, ⟨n, sent, false⟩)
              | (.ok _, sent, _) =>
                (.ok (runWatch handle (contents.length : Int)
                        (initialWatchState env.startTime) env.polls),
                 ⟨n, sent, true⟩)
          if opts.sha256 ≠ "" then
            if hash contents ≠ opts.sha256 then
              (.error (.checksumMismatch opts.sha256 (hash contents)), ⟨0, [], false⟩)
            else run
          else run


/-! ## Claim theorems -/

/-- C1: if a caller-supplied SHA-256 digest is present and differs from the
locally computed digest of the file contents, `FlashNode` fails immediately
with the checksum-mismatch error and performs zero network calls: no initiate
request, no upload, and the progress watcher is never started. -/
theorem flashNode_checksum_mismatch_no_network
    (hash : List Nat → String) (encodeForm : String → List Nat → List Nat)
    (node : Int) (opts : FlashOptions) (contents : List Nat) (env : FlashEnv)
    (hnode : 1 ≤ node ∧ node ≤ 4) (hpath : opts.imagePath ≠ "")
    (hsha : opts.sha256 ≠ "") (hmismatch : hash contents ≠ opts.sha256) :
    flashNode hash encodeForm node (some opts) (some contents) env =
      (.error (.checksumMismatch opts.sha256 (hash contents)),
       ⟨0, [], false⟩) := by
  have hrange : ¬(node < 1 ∨ 4 < node) := by omega
  simp only [flashNode, hrange, if_false, if_neg hpath, if_pos hsha,
    if_pos hmismatch, if_neg (not_not_intro hrange)]

/-- Witness for C1 at a concrete mismatching digest. -/
theorem flashNode_checksum_mismatch_no_network_witness :
    flashNode (fun _ => "aaa") (fun _ c => c) 2
      (some ⟨"img.bin", "bbb", false⟩) (some [1, 2, 3])
      ⟨fun _ => .transportErr "unused", fun _ => .resp 200 "", [], 0⟩ =
      (.error (.checksumMismatch "bbb" "aaa"), ⟨0, [], false⟩) :=
  flashNode_checksum_mismatch_no_network _ _ _ _ _ _
    (by constructor <;> decide) (by decide) (by decide) (by decide)

/-- C8 counterexample: the concrete put `CacheToken("192.168.1.91", "tok123")`
produces a filesystem trace that is not an atomic write-then-rename put of the
cache path — it is a direct `os.WriteFile` of the final path. -/
theorem cacheToken_put_not_atomic :
    isAtomicPut (getCacheFilePath "/home/u/.cache/tpi" "192.168.1.91")
      (cacheTokenOps "/home/u/.cache/tpi" "192.168.1.91" "tok123") = false := by
  simp [isAtomicPut, cacheTokenOps]

/-- C8 amended: every token-cache put is a single direct `os.WriteFile` of the
final cache path (mode 0600) with no rename anywhere in the trace, so no put
is atomic in the spec's write-then-rename sense. -/
theorem cacheToken_single_direct_write (cacheDir host token : String) :
    (∀ op ∈ cacheTokenOps cacheDir host token, ∀ s d, op ≠ .rename s d) ∧
    isAtomicPut (getCacheFilePath cacheDir host)
      (cacheTokenOps cacheDir host token) = false := by
  constructor
  · intro op hop s d
    simp only [cacheTokenOps, List.mem_singleton] at hop
    subst hop
    intro h
    cases h
  · simp [isAtomicPut, cacheTokenOps]

/-- Witness for C8 (amended) at a concrete host, token and cache directory. -/
theorem cacheToken_single_direct_write_witness :
    (FsOp.writeFile (getCacheFilePath "/home/u/.cache/tpi" "10.0.0.5") "tok" 0o600
      ≠ FsOp.rename "/tmp/a" "/tmp/b") ∧
    isAtomicPut (getCacheFilePath "/home/u/.cache/tpi" "10.0.0.5")
      (cacheTokenOps "/home/u/.cache/tpi" "10.0.0.5" "tok") = false :=
  ⟨(cacheToken_single_direct_write "/home/u/.cache/tpi" "10.0.0.5" "tok").1
      _ (by simp [cacheTokenOps]) "/tmp/a" "/tmp/b",
   (cacheToken_single_direct_write "/home/u/.cache/tpi" "10.0.0.5" "tok").2⟩

/-- Draining an already-empty buffer leaves it empty. -/
theorem uploadDrain_nil (a : UploadAttempt) : uploadDrain a [] = [] := by
  cases a with
  | transportErr e drained => simp [uploadDrain]
  | resp code body => simp [uploadDrain]

/-- C9: when the first upload attempt comes back with a non-200 status (so the
request body was transmitted and the shared multipart buffer drained), every
retry reuses that same buffer and therefore sends an empty body: the bodies
sent are the full form followed only by empty bodies. -/
theorem uploadLoop_retry_sends_empty_body
    (env : Nat → UploadAttempt) (form : List Nat) (code : Nat) (body : String)
    (h0 : env 0 = .resp code body) (hc : code ≠ 200) :
    (uploadLoop env form).2.1 = [form, []] ∨
    (uploadLoop env form).2.1 = [form, [], []] := by
  unfold uploadLoop
  rw [h0]
  dsimp only
  rw [show uploadOutcome (UploadAttempt.resp code body) =
        .error (.uploadStatusFailed code body) from by simp [uploadOutcome, hc]]
  rw [show uploadDrain (UploadAttempt.resp code body) form = [] from rfl]
  cases houtcome : uploadOutcome (env 1) with
  | ok v => simp
  | error e => simp [uploadDrain_nil]

/-- Witness for C9: a 500 on the first attempt followed by a 200 leads to the
retry posting an empty body. -/
theorem uploadLoop_retry_sends_empty_body_witness :
    (uploadLoop (fun i => if i = 0 then .resp 500 "server error" else .resp 200 "")
        [1, 2, 3]).2.1 = [[1, 2, 3], []] ∨
    (uploadLoop (fun i => if i = 0 then .resp 500 "server error" else .resp 200 "")
        [1, 2, 3]).2.1 = [[1, 2, 3], [], []] :=
  uploadLoop_retry_sends_empty_body _ _ 500 "server error" rfl (by decide)

/-- The counter-reset applied after every successful poll changes only the
consecutive-error counter and the last-error message. -/
theorem resetConsecutive_fields (st : WatchState) :
    (resetConsecutive st).verifying = st.verifying ∧
    (resetConsecutive st).lastBytes = st.lastBytes ∧
    (resetConsecutive st).lastUpdateTime = st.lastUpdateTime ∧
    (resetConsecutive st).speedWindow = st.speedWindow ∧
    (resetConsecutive st).consecutiveErr = 0 ∨
    resetConsecutive st = st := by
  by_cases h : 0 < st.consecutiveErr
  · left
    simp [resetConsecutive, h]
  · right
    simp [resetConsecutive, h]

/-- The counter-reset never touches the verifying flag, byte counter,
timestamp or sample window. -/
theorem resetConsecutive_preserves (st : WatchState) :
    (resetConsecutive st).verifying = st.verifying ∧
    (resetConsecutive st).lastBytes = st.lastBytes ∧
    (resetConsecutive st).lastUpdateTime = st.lastUpdateTime ∧
    (resetConsecutive st).speedWindow = st.speedWindow := by
  unfold resetConsecutive
  split <;> simp

/-- C4: a `Transferring` update whose id parses but differs from the bound
handle is silently dropped: the verifying flag, byte counters and the sample
window are unchanged, no progress update is emitted, and the watch neither
finishes nor fails — the step is a plain continue. -/
theorem pollStep_mismatched_id_ignored
    (handle fileSize : Int) (st : WatchState) (i : Int) (bw : Option Int)
    (now : ℚ) (h : i ≠ handle) :
    pollStep handle fileSize st (.transferring (some i) bw) now =
      (resetConsecutive st, .cont 0) ∧
    (resetConsecutive st).verifying = st.verifying ∧
    (resetConsecutive st).lastBytes = st.lastBytes ∧
    (resetConsecutive st).lastUpdateTime = st.lastUpdateTime ∧
    (resetConsecutive st).speedWindow = st.speedWindow := by
  refine ⟨?_, resetConsecutive_preserves st⟩
  simp [pollStep, h]

/-- Witness for C4: an update for handle 3 is ignored by a monitor bound to
handle 7. -/
theorem pollStep_mismatched_id_ignored_witness :
    pollStep 7 1000 ⟨true, 2, "e", 5, 0, [1]⟩
        (.transferring (some 3) (some 10)) 1 =
      (resetConsecutive ⟨true, 2, "e", 5, 0, [1]⟩, .cont 0) :=
  (pollStep_mismatched_id_ignored 7 1000 ⟨true, 2, "e", 5, 0, [1]⟩ 3 (some 10) 1
    (by decide)).1

/-- The consecutive-error counter is 0 after the post-`Send` reset, whether or
not a reset was needed. -/
theorem resetConsecutive_err (st : WatchState) :
    (resetConsecutive st).consecutiveErr = 0 := by
  unfold resetConsecutive
  split
  · rfl
  · omega

/-- Folding samples into the window from empty keeps exactly the most recent
five: the window is the suffix of the pushed samples of length at most 5. -/
theorem foldl_pushSample_eq (xs : List ℚ) :
    List.foldl pushSample [] xs = xs.drop (xs.length - 5) := by
  induction xs using List.reverseRecOn with
  | nil => rfl
  | append_singleton ys y ih =>
    rw [List.foldl_append, List.foldl_cons, List.foldl_nil, ih]
    by_cases h : ys.length ≤ 4
    · have h2 : ys.length - 5 = 0 := by omega
      have h3 : ys.length + 1 - 5 = 0 := by omega
      simp only [h2, List.drop_zero, List.length_append, List.length_singleton, h3]
      simp [pushSample, show ¬ 5 < ys.length + 1 by omega]
    · push_neg at h
      have h5 : 5 ≤ ys.length := by omega
      have hdlen : (ys.drop (ys.length - 5)).length = 5 := by
        rw [List.length_drop]
        omega
      have hne : ys.drop (ys.length - 5) ≠ [] := by
        intro hnil
        rw [hnil] at hdlen
        simp at hdlen
      have step : pushSample (ys.drop (ys.length - 5)) y
          = (ys.drop (ys.length - 5)).tail ++ [y] := by
        have hlen : 5 < (ys.drop (ys.length - 5) ++ [y]).length := by
          rw [List.length_append, hdlen]
          simp
        simp only [pushSample]
        rw [if_pos hlen]
        cases hd : ys.drop (ys.length - 5) with
        | nil => exact absurd hd hne
        | cons a d => simp
      rw [step, List.tail_drop]
      have h6 : ys.length - 5 + 1 = ys.length - 4 := by omega
      have h7 : (ys ++ [y]).length - 5 = ys.length - 4 := by
        rw [List.length_append, List.length_singleton]
        omega
      rw [h6, h7, List.drop_append_of_le_length (by omega)]

/-- C5: the reported speed is the arithmetic mean of a sliding window of at
most the last 5 samples: a single pushed sample is reported as-is; after 6 or
more pushes only the most recent 5 contribute; and the `Transferring` branch
of the poll loop extends the window with the current `(Δbytes/Δt)` sample and
emits exactly that window mean as the speed. -/
theorem speed_window_sliding_mean :
    (∀ s : ℚ, windowMean (pushSample [] s) = s) ∧
    (∀ samples : List ℚ,
        List.foldl pushSample [] samples = samples.drop (samples.length - 5)) ∧
    (∀ samples : List ℚ, 6 ≤ samples.length →
        windowMean (List.foldl pushSample [] samples)
          = (samples.drop (samples.length - 5)).sum / 5) ∧
    (∀ (handle fileSize : Int) (st : WatchState) (b : Int) (now : ℚ),
        b < fileSize →
        0 < now - st.lastUpdateTime → 0 < st.lastBytes →
        (pollStep handle fileSize st (.transferring (some handle) (some b))
            now).1.speedWindow
          = pushSample st.speedWindow
              (((b : ℚ) - (st.lastBytes : ℚ)) / (now - st.lastUpdateTime)) ∧
        ∃ eta, (pollStep handle fileSize st (.transferring (some handle) (some b))
            now).2
          = .emitProgress ((b : ℚ) / (fileSize : ℚ) * 100)
              (windowMean (pushSample st.speedWindow
                (((b : ℚ) - (st.lastBytes : ℚ)) / (now - st.lastUpdateTime)))) eta) := by
  refine ⟨?_, ?_, ?_, ?_⟩
  · intro s
    simp [pushSample, windowMean]
  · exact foldl_pushSample_eq
  · intro samples h6
    rw [foldl_pushSample_eq, windowMean]
    have hlen : (samples.drop (samples.length - 5)).length = 5 := by
      rw [List.length_drop]
      omega
    rw [hlen]
    norm_num
  · intro handle fileSize st b now hb ht hbytes
    obtain ⟨hv, hlb, hlt, hw⟩ := resetConsecutive_preserves st
    simp only [pollStep]
    rw [if_neg (by simp : ¬ (handle ≠ handle))]
    rw [if_neg (by omega : ¬ fileSize ≤ b)]
    rw [hlt, hlb, hw]
    rw [if_pos ⟨ht, hbytes⟩]
    exact ⟨rfl, _, rfl⟩

/-- Witness for C5 at a concrete sample: previous bytes 100 at time 0, update
to 300 bytes at time 2 pushes the instantaneous rate (300-100)/2 and reports
it as the (single-sample) mean. -/
theorem speed_window_sliding_mean_witness :
    (pollStep 7 1000 ⟨false, 0, "", 100, 0, []⟩
        (.transferring (some 7) (some 300)) 2).1.speedWindow
      = pushSample [] ((((300 : Int) : ℚ) - ((100 : Int) : ℚ)) / ((2 : ℚ) - 0)) ∧
    ∃ eta, (pollStep 7 1000 ⟨false, 0, "", 100, 0, []⟩
        (.transferring (some 7) (some 300)) 2).2
      = .emitProgress (((300 : Int) : ℚ) / ((1000 : Int) : ℚ) * 100)
          (windowMean (pushSample []
            ((((300 : Int) : ℚ) - ((100 : Int) : ℚ)) / ((2 : ℚ) - 0)))) eta :=
  speed_window_sliding_mean.2.2.2 7 1000 ⟨false, 0, "", 100, 0, []⟩ 300 2
    (by decide) (by norm_num) (by decide)

/-- C3 counterexample: a poll whose response arrives but fails to decode does
not increment the consecutive-error counter — at counter 3 a decode failure
brings the counter to 0 (the post-`Send` reset), not to 4, and the loop simply
continues with no backoff. -/
theorem pollStep_decode_failure_not_counted :
    (pollStep 7 1000 ⟨false, 3, "", 0, 0, []⟩
        (.decodeFailure "invalid character") 1).1.consecutiveErr = 0 ∧
    ¬ (pollStep 7 1000 ⟨false, 3, "", 0, 0, []⟩
        (.decodeFailure "invalid character") 1).1.consecutiveErr = 3 + 1 ∧
    (pollStep 7 1000 ⟨false, 3, "", 0, 0, []⟩
        (.decodeFailure "invalid character") 1).2 = .cont 0 := by
  refine ⟨rfl, by decide, rfl⟩

/-- C3 amended: each transport failure of a poll increments the
consecutive-error counter and backs off by `min(count/2, 10)` seconds; the
watch aborts once the counter reaches 20; any poll whose HTTP exchange
succeeds — a decodable body, an undecodable body, or an unrecognized shape —
resets the counter to 0 (a decode failure is retried without counting);
19 consecutive transport errors followed by one success never aborts, and 21
consecutive transport errors always fail. -/
theorem watch_error_counter_policy :
    (∀ (handle fileSize : Int) (st : WatchState) (msg : String) (now : ℚ),
        st.consecutiveErr + 1 < 20 →
        ∃ st', pollStep handle fileSize st (.transportErr msg) now
            = (st', .cont (min ((st.consecutiveErr + 1) / 2) 10)) ∧
          st'.consecutiveErr = st.consecutiveErr + 1) ∧
    (∀ (handle fileSize : Int) (st : WatchState) (msg : String) (now : ℚ),
        20 ≤ st.consecutiveErr + 1 →
        ∃ st' m, pollStep handle fileSize st (.transportErr msg) now
            = (st', .fail m) ∧
          st'.consecutiveErr = st.consecutiveErr + 1) ∧
    (∀ (handle fileSize : Int) (st : WatchState) (now : ℚ)
        (id bw : Option Int) (msg : String),
        (pollStep handle fileSize st (.decodeFailure msg) now).1.consecutiveErr = 0 ∧
        (pollStep handle fileSize st (.transferring id bw) now).1.consecutiveErr = 0 ∧
        (pollStep handle fileSize st .unknown now).1.consecutiveErr = 0) ∧
    (∃ st', runWatch 7 1000 (initialWatchState 0)
        (List.replicate 19 ((.transportErr "x" : PollEvent), (0 : ℚ))
          ++ [((.transferring (some 7) (some 1000) : PollEvent), (1 : ℚ))])
        = .running st' ∧ st'.consecutiveErr = 0) ∧
    (∃ m, runWatch 7 1000 (initialWatchState 0)
        (List.replicate 21 ((.transportErr "x" : PollEvent), (0 : ℚ)))
        = .failed m) := by
  refine ⟨?_, ?_, ?_, ?_, ?_⟩
  · intro handle fileSize st msg now h
    refine Exists.intro
      ({ st with
          consecutiveErr := st.consecutiveErr + 1,
          lastErrorMsg := (if msg ≠ st.lastErrorMsg ∨ (st.consecutiveErr + 1) % 5 = 1
            then msg else st.lastErrorMsg) })
      ⟨?_, rfl⟩
    simp only [pollStep]
    rw [if_neg (by omega : ¬ 20 ≤ st.consecutiveErr + 1)]
  · intro handle fileSize st msg now h
    refine Exists.intro
      ({ st with
          consecutiveErr := st.consecutiveErr + 1,
          lastErrorMsg := (if msg ≠ st.lastErrorMsg ∨ (st.consecutiveErr + 1) % 5 = 1
            then msg else st.lastErrorMsg) })
      (Exists.intro
        ("too many consecutive errors (" ++ toString (st.consecutiveErr + 1)
          ++ "): " ++ msg)
        ⟨?_, rfl⟩)
    simp only [pollStep]
    rw [if_pos (by omega : 20 ≤ st.consecutiveErr + 1)]
  · intro handle fileSize st now id bw msg
    refine ⟨?_, ?_, ?_⟩
    · simp [pollStep, resetConsecutive_err]
    · rcases id with _ | i
      · simp [pollStep, resetConsecutive_err]
      · by_cases hi : i ≠ handle
        · simp [pollStep, hi, resetConsecutive_err]
        · rcases bw with _ | b
          · simp only [pollStep]
            rw [if_neg hi]
            exact resetConsecutive_err st
          · simp only [pollStep]
            rw [if_neg hi]
            split
            · split
              · exact resetConsecutive_err st
              · exact resetConsecutive_err st
            · split
              · exact resetConsecutive_err st
              · exact resetConsecutive_err st
    · simp [pollStep, resetConsecutive_err]
  · exact ⟨⟨true, 0, "", 0, 0, []⟩, by decide, rfl⟩
  · exact ⟨"too many consecutive errors (20): x", by decide⟩

/-- Witness for C3 (amended) at the first error from a fresh watch state. -/
theorem watch_error_counter_policy_witness :
    ∃ st', pollStep 7 1000 (initialWatchState 0) (.transportErr "boom") 1
        = (st', .cont (min (((initialWatchState 0).consecutiveErr + 1) / 2) 10)) ∧
      st'.consecutiveErr = (initialWatchState 0).consecutiveErr + 1 :=
  watch_error_counter_policy.1 7 1000 (initialWatchState 0) "boom" 1 (by decide)

/-- C6 counterexample: a 200 response whose body fails to decode as JSON is
retried by the initiate loop (a second attempt is sent), although it is not a
transport error, not a non-200 status, and not a decoded JSON body missing a
numeric handle — so the claimed "retried exactly when" condition set is too
small. -/
theorem initiateLoop_retries_undecodable_body :
    initiateLoop (fun i => if i = 0
        then .resp 200 (.undecodable "unexpected end of JSON input" "garbage")
        else .resp 200 (.json (some 7) "ok"))
      = (.ok 7, 2, [3]) ∧
    claimedInitRetry
        (.resp 200 (.undecodable "unexpected end of JSON input" "garbage"))
      = false := by
  exact ⟨rfl, rfl⟩

/-- C6 amended: the initiate phase makes at most 3 attempts separated by fixed
3-second delays; an attempt is retried exactly when it fails, which happens
exactly on a transport error, a non-200 status, a 200 body that fails to
decode as JSON, or a decoded JSON body missing a numeric handle field; when
all 3 attempts fail the loop surfaces the last attempt's error after exactly 3
attempts (in particular on three bodies without a handle field). -/
theorem initiateLoop_retry_policy :
    (∀ a, isErr (initiateAttempt a) = amendedInitRetry a) ∧
    (∀ env, (initiateLoop env).2.1 ≤ 3) ∧
    (∀ env, (initiateLoop env).2.2 = List.replicate ((initiateLoop env).2.1 - 1) 3) ∧
    (∀ env, 2 ≤ (initiateLoop env).2.1 ↔ isErr (initiateAttempt (env 0)) = true) ∧
    (∀ env, isErr (initiateAttempt (env 0)) = true →
        isErr (initiateAttempt (env 1)) = true →
        initiateLoop env = (initiateAttempt (env 2), 3, [3, 3])) ∧
    initiateLoop (fun _ => .resp 200 (.json none "no handle field"))
      = (.error .initiateMissingHandle, 3, [3, 3]) := by
  refine ⟨?_, ?_, ?_, ?_, ?_, rfl⟩
  · intro a
    cases a with
    | transportErr e => rfl
    | resp code body =>
      by_cases h : code = 200
      · subst h
        cases body with
        | undecodable e raw => rfl
        | json hdl raw => cases hdl <;> rfl
      · cases body <;>
          simp [initiateAttempt, amendedInitRetry, isErr, h]
  · intro env
    unfold initiateLoop
    cases initiateAttempt (env 0) with
    | ok h => simp
    | error e =>
      cases initiateAttempt (env 1) with
      | ok h => simp
      | error e => simp
  · intro env
    unfold initiateLoop
    cases initiateAttempt (env 0) with
    | ok h => simp
    | error e =>
      cases initiateAttempt (env 1) with
      | ok h => simp [List.replicate]
      | error e => simp [List.replicate]
  · intro env
    unfold initiateLoop
    cases h0 : initiateAttempt (env 0) with
    | ok h => simp [isErr]
    | error e =>
      cases initiateAttempt (env 1) with
      | ok h => simp [isErr]
      | error e => simp [isErr]
  · intro env h0 h1
    unfold initiateLoop
    cases he0 : initiateAttempt (env 0) with
    | ok h => rw [he0] at h0; exact absurd h0 (by simp [isErr])
    | error e =>
      cases he1 : initiateAttempt (env 1) with
      | ok h => rw [he1] at h1; exact absurd h1 (by simp [isErr])
      | error e => rfl

/-- Witness for C6 (amended): three consecutive transport failures surface the
last transport error after exactly 3 attempts with two 3-second sleeps. -/
theorem initiateLoop_retry_policy_witness :
    initiateLoop (fun _ => .transportErr "connection refused")
      = (initiateAttempt (.transportErr "connection refused"), 3, [3, 3]) :=
  initiateLoop_retry_policy.2.2.2.2.1 (fun _ => .transportErr "connection refused")
    rfl rfl

/-- The default-credentials loop returns the first successful pair's token,
calling exactly the failing prefix and the first succeeding pair. -/
theorem tryDefaultsGo_first_success (auth : AuthFn) (c : Cache) (host : String) :
    ∀ (l₁ : List (String × String)) (q : String × String)
      (l₂ : List (String × String)) (t lastE : String),
      (∀ r ∈ l₁, isErr (auth r.1 r.2) = true) → auth q.1 q.2 = .ok t →
      tryDefaultsGo auth c host (l₁ ++ q :: l₂) lastE
        = ⟨.ok t, l₁ ++ [q], cacheInsert c host t⟩ := by
  intro l₁
  induction l₁ with
  | nil =>
    intro q l₂ t lastE _ hok
    simp only [List.nil_append, tryDefaultsGo, requestTokenM]
    rw [hok]
  | cons a rest ih =>
    intro q l₂ t lastE hfail hok
    have ha : isErr (auth a.1 a.2) = true := hfail a (by simp)
    cases hcall : auth a.1 a.2 with
    | ok v => rw [hcall] at ha; simp [isErr] at ha
    | error e =>
      simp only [List.cons_append, tryDefaultsGo, requestTokenM]
      rw [hcall]
      have hrest := ih q l₂ t e (fun r hr => hfail r (by simp [hr])) hok
      simp [List.append_eq, hrest]

/-- When every pair fails, the default-credentials loop calls every pair and
surfaces the wrapped error of the last pair tried. -/
theorem tryDefaultsGo_all_fail (auth : AuthFn) (c : Cache) (host : String) :
    ∀ (pairs : List (String × String)) (lastE : String),
      (∀ r ∈ pairs, isErr (auth r.1 r.2) = true) →
      (tryDefaultsGo auth c host pairs lastE).result
          = .error ("failed to authenticate with any credentials: "
              ++ (match pairs.getLast? with
                  | some q => exceptErrMsg (auth q.1 q.2)
                  | none => lastE)) ∧
      (tryDefaultsGo auth c host pairs lastE).calls = pairs := by
  intro pairs
  induction pairs with
  | nil =>
    intro lastE _
    exact ⟨rfl, rfl⟩
  | cons a rest ih =>
    intro lastE hfail
    have ha : isErr (auth a.1 a.2) = true := hfail a (by simp)
    cases hcall : auth a.1 a.2 with
    | ok v => rw [hcall] at ha; simp [isErr] at ha
    | error e =>
      have hrest := ih e (fun r hr => hfail r (by simp [hr]))
      cases rest with
      | nil =>
        simp only [tryDefaultsGo, requestTokenM]
        rw [hcall]
        simp [tryDefaultsGo, List.getLast?, exceptErrMsg, hcall]
      | cons b rest2 =>
        simp only [tryDefaultsGo, requestTokenM]
        rw [hcall]
        simp only [List.getLast?_cons_cons]
        refine ⟨?_, ?_⟩
        · exact hrest.1
        · simp only [List.cons.injEq, true_and]
          exact hrest.2

/-- Every pair the default-credentials loop actually calls comes from the pair
list it iterates. -/
theorem tryDefaultsGo_calls_subset (auth : AuthFn) (c : Cache) (host : String) :
    ∀ (pairs : List (String × String)) (lastE : String),
      ∀ q ∈ (tryDefaultsGo auth c host pairs lastE).calls, q ∈ pairs := by
  intro pairs
  induction pairs with
  | nil =>
    intro lastE q hq
    simp [tryDefaultsGo] at hq
  | cons a rest ih =>
    intro lastE q hq
    simp only [tryDefaultsGo, requestTokenM] at hq
    cases hcall : auth a.1 a.2 with
    | ok v =>
      rw [hcall] at hq
      simp at hq
      simp [hq]
    | error e =>
      rw [hcall] at hq
      simp at hq
      rcases hq with hq | hq
      · simp [hq]
      · exact List.mem_cons_of_mem a (ih e q hq)

/-- The legacy-token lookup step yields nothing when the host is empty (the
step is skipped) or the legacy entry is absent. -/
theorem legacy_lookup_none (c : Cache) (host : String)
    (hor : host = "" ∨ c "" = none) :
    (if host ≠ "" then c "" else none) = none := by
  rcases hor with h | h
  · simp [h]
  · by_cases hh : host ≠ ""
    · simp [hh, h]
    · simp [hh]

/-- C7: credential resolution tries, in order and short-circuiting on first
success: the host-specific cached token, the legacy cached token, explicit
credentials via the authenticate endpoint (only when both are non-empty), and
finally the fixed vendor-default list root/"", root/turing, root/root,
admin/admin, turingpi/turingpi; the first successful pair's token is returned
and, when every default pair fails, the error of the last pair
(turingpi/turingpi) is surfaced. -/
theorem getBearerToken_resolution_order
    (auth : AuthFn) (c : Cache) (host u p : String) :
    (∀ t, c host = some t → getBearerTokenM auth c host u p = ⟨.ok t, [], c⟩) ∧
    (∀ t, c host = none → host ≠ "" → c "" = some t →
        getBearerTokenM auth c host u p = ⟨.ok t, [], c⟩) ∧
    (c host = none → (host = "" ∨ c "" = none) → u ≠ "" → p ≠ "" →
        (getBearerTokenM auth c host u p).result = auth u p ∧
        (getBearerTokenM auth c host u p).calls = [(u, p)]) ∧
    (c host = none → (host = "" ∨ c "" = none) → ¬(u ≠ "" ∧ p ≠ "") →
        getBearerTokenM auth c host u p
          = tryDefaultsGo auth c host credentialPairs "") ∧
    (c host = none → (host = "" ∨ c "" = none) → ¬(u ≠ "" ∧ p ≠ "") →
        ∀ (l₁ : List (String × String)) (q : String × String)
          (l₂ : List (String × String)) (t : String),
          credentialPairs = l₁ ++ q :: l₂ →
          (∀ r ∈ l₁, isErr (auth r.1 r.2) = true) → auth q.1 q.2 = .ok t →
          (getBearerTokenM auth c host u p).result = .ok t ∧
          (getBearerTokenM auth c host u p).calls = l₁ ++ [q]) ∧
    (c host = none → (host = "" ∨ c "" = none) → ¬(u ≠ "" ∧ p ≠ "") →
        (∀ r ∈ credentialPairs, isErr (auth r.1 r.2) = true) →
        (getBearerTokenM auth c host u p).result
          = .error ("failed to authenticate with any credentials: "
              ++ exceptErrMsg (auth "turingpi" "turingpi"))) := by
  refine ⟨?_, ?_, ?_, ?_, ?_, ?_⟩
  · intro t ht
    simp [getBearerTokenM, ht]
  · intro t h0 hh hleg
    simp [getBearerTokenM, h0, hh, hleg]
  · intro h0 hor hu hp
    have hleg := legacy_lookup_none c host hor
    cases hcall : auth u p <;>
      simp [getBearerTokenM, h0, hleg, hu, hp, requestTokenM, hcall]
  · intro h0 hor hnot
    have hleg := legacy_lookup_none c host hor
    simp [getBearerTokenM, h0, hleg, hnot]
  · intro h0 hor hnot l₁ q l₂ t hsplit hfail hok
    have hleg := legacy_lookup_none c host hor
    have h4 : getBearerTokenM auth c host u p
        = tryDefaultsGo auth c host credentialPairs "" := by
      simp [getBearerTokenM, h0, hleg, hnot]
    rw [h4, hsplit,
      tryDefaultsGo_first_success auth c host l₁ q l₂ t "" hfail hok]
    exact ⟨rfl, rfl⟩
  · intro h0 hor hnot hfail
    have hleg := legacy_lookup_none c host hor
    have h4 : getBearerTokenM auth c host u p
        = tryDefaultsGo auth c host credentialPairs "" := by
      simp [getBearerTokenM, h0, hleg, hnot]
    rw [h4, (tryDefaultsGo_all_fail auth c host credentialPairs "" hfail).1]
    rfl

/-- Witness for C7: with empty caches, no explicit credentials and an
authenticate endpoint that rejects everything, resolution surfaces the wrapped
error of the last default pair. -/
theorem getBearerToken_resolution_order_witness :
    (getBearerTokenM (fun _ _ => .error "denied") (fun _ => none)
        "10.0.0.5" "" "").result
      = .error ("failed to authenticate with any credentials: " ++ "denied") :=
  (getBearerToken_resolution_order (fun _ _ => .error "denied") (fun _ => none)
      "10.0.0.5" "" "").2.2.2.2.2
    rfl (Or.inr rfl) (by simp) (fun r _ => rfl)

/-- C10: when the username or the password is empty (including a non-empty
username with an empty password) and no token is cached, resolution skips the
explicit authenticate step entirely and proceeds directly to the
vendor-default list: the run is exactly the default-credentials loop, and
every authenticate call it makes uses a vendor-default pair. -/
theorem getBearerToken_skips_explicit_on_empty
    (auth : AuthFn) (c : Cache) (host u p : String)
    (h0 : c host = none) (hor : host = "" ∨ c "" = none)
    (hup : u = "" ∨ p = "") :
    getBearerTokenM auth c host u p
      = tryDefaultsGo auth c host credentialPairs "" ∧
    ∀ q ∈ (getBearerTokenM auth c host u p).calls, q ∈ credentialPairs := by
  have hnot : ¬(u ≠ "" ∧ p ≠ "") := by
    rcases hup with h | h <;> simp [h]
  have hleg := legacy_lookup_none c host hor
  have heq : getBearerTokenM auth c host u p
      = tryDefaultsGo auth c host credentialPairs "" := by
    simp [getBearerTokenM, h0, hleg, hnot]
  refine ⟨heq, ?_⟩
  rw [heq]
  exact tryDefaultsGo_calls_subset auth c host credentialPairs ""

/-- Witness for C10: a non-empty username with an empty password falls through
to the vendor-default list. -/
theorem getBearerToken_skips_explicit_on_empty_witness :
    getBearerTokenM (fun user _ => if user = "root" then .ok "tok" else .error "no")
        (fun _ => none) "10.0.0.5" "admin2" ""
      = tryDefaultsGo (fun user _ => if user = "root" then .ok "tok" else .error "no")
        (fun _ => none) "10.0.0.5" credentialPairs "" :=
  (getBearerToken_skips_explicit_on_empty
      (fun user _ => if user = "root" then .ok "tok" else .error "no")
      (fun _ => none) "10.0.0.5" "admin2" "" rfl (Or.inr rfl) (Or.inr rfl)).1

/-- A pre-authenticated `Send` iteration appends at most one HTTP attempt. -/
theorem sendAux_true_attempts_le (auth : AuthFn) (responses : Nat → WireResp)
    (host u p : String) (c : Cache) (i : Nat) (log : List (Option String)) :
    (sendAux auth responses host u p true c i log).attempts.length
      ≤ log.length + 1 := by
  unfold sendAux
  rcases hgm : getBearerTokenM auth c host u p with ⟨r, calls, c'⟩
  cases r with
  | error e => simp
  | ok tok =>
    cases responses i with
    | transportErr e => simp
    | status code =>
      by_cases h401 : code = 401 <;> simp [h401]

/-- One logical `Send` makes at most two HTTP attempts in total. -/
theorem sendAux_false_attempts_le (auth : AuthFn) (responses : Nat → WireResp)
    (host u p : String) (c : Cache) (i : Nat) (log : List (Option String)) :
    (sendAux auth responses host u p false c i log).attempts.length
      ≤ log.length + 2 := by
  unfold sendAux
  cases responses i with
  | transportErr e => simp
  | status code =>
    by_cases h401 : code = 401
    · simp only [h401, if_true, if_pos rfl]
      calc (sendAux auth responses host u p true c (i + 1)
              (log ++ [none])).attempts.length
          ≤ (log ++ [none]).length + 1 :=
            sendAux_true_attempts_le auth responses host u p c (i + 1) (log ++ [none])
        _ = log.length + 2 := by simp
    · simp [h401]

/-- C2: a logical `Send` that starts unauthenticated and receives a 401
resolves credentials and resends exactly once with the new token (then returns
whatever the second exchange produced, a second 401 included); a `Send` that
starts pre-authenticated and receives a 401 deletes the cached token and
returns the 401 with no further attempt; and no logical call ever performs
more than two HTTP attempts, i.e. more than one automatic
re-authentication retry. -/
theorem send_reauth_once (auth : AuthFn) (responses : Nat → WireResp)
    (c : Cache) (host u p : String) :
    (∀ t, c host = none → responses 0 = .status 401 →
        (getBearerTokenM auth c host u p).result = .ok t →
        (send auth responses c host u p).attempts = [none, some t] ∧
        (∀ k, responses 1 = .status k → k ≠ 401 →
            (send auth responses c host u p).result = .ok k) ∧
        (responses 1 = .status 401 →
            (send auth responses c host u p).result = .ok 401 ∧
            (send auth responses c host u p).cache host = none)) ∧
    (∀ t, c host = some t → responses 0 = .status 401 →
        (send auth responses c host u p).result = .ok 401 ∧
        (send auth responses c host u p).attempts = [some t] ∧
        (send auth responses c host u p).cache host = none) ∧
    (send auth responses c host u p).attempts.length ≤ 2 := by
  refine ⟨?_, ?_, ?_⟩
  · intro t h0 hr0 hg
    have hpre : (c host).isSome = false := by simp [h0]
    rcases hgm : getBearerTokenM auth c host u p with ⟨r, calls, c'⟩
    rw [hgm] at hg
    obtain rfl : r = Except.ok t := hg
    have hredux : send auth responses c host u p
        = sendAux auth responses host u p true c 1 [none] := by
      unfold send
      rw [hpre]
      conv_lhs => rw [sendAux.eq_def]
      simp [hr0]
    refine ⟨?_, ?_, ?_⟩
    · rw [hredux]
      unfold sendAux
      rw [hgm]
      cases hr1 : responses 1 with
      | transportErr e => simp
      | status code => by_cases h401 : code = 401 <;> simp [h401]
    · intro k hr1 hk
      rw [hredux]
      unfold sendAux
      rw [hgm, hr1]
      simp [hk]
    · intro hr1
      rw [hredux]
      unfold sendAux
      rw [hgm, hr1]
      simp [cacheRemove]
  · intro t h0 hr0
    have hpre : (c host).isSome = true := by simp [h0]
    have hgm : getBearerTokenM auth c host u p = ⟨.ok t, [], c⟩ := by
      simp [getBearerTokenM, h0]
    unfold send
    rw [hpre]
    unfold sendAux
    rw [hgm, hr0]
    refine ⟨by simp, by simp, by simp [cacheRemove]⟩
  · cases hb : (c host).isSome
    · unfold send
      rw [hb]
      simpa using sendAux_false_attempts_le auth responses host u p c 0 []
    · unfold send
      rw [hb]
      have h := sendAux_true_attempts_le auth responses host u p c 0 []
      simp at h
      omega

/-- Witness for C2: a 401-then-200 exchange with no cached token performs
exactly one re-authentication resend with the new token and succeeds. -/
theorem send_reauth_once_witness :
    (send (fun _ _ => .ok "tok1")
        (fun i => if i = 0 then .status 401 else .status 200)
        (fun _ => none) "10.0.0.1" "root" "turing").attempts
      = [none, some "tok1"] ∧
    (send (fun _ _ => .ok "tok1")
        (fun i => if i = 0 then .status 401 else .status 200)
        (fun _ => none) "10.0.0.1" "root" "turing").result = .ok 200 := by
  have h := (send_reauth_once (fun _ _ => .ok "tok1")
      (fun i => if i = 0 then .status 401 else .status 200)
      (fun _ => none) "10.0.0.1" "root" "turing").1 "tok1" rfl rfl rfl
  exact ⟨h.1, h.2.1 200 rfl (by decide)⟩


end Tpi
